import Mathlib

/-!
Verification of the forum's authorization and content-lifecycle engine.

The definitions below are a shallow embedding of the TypeScript sources:
* `ROLE_HIERARCHY`, `canAccessSection`, `canDeletePost`, `canRevivePost`,
  `canTagBugReport`, `canViewAllReports` from `client/src/lib/permissions.ts`;
* `DatabaseStorage` operations (`getPosts`, `getPost`, `updatePost`,
  `deletePost`, `revivePost`, `updateUserBadge`, `createAppeal`, `getAppeals`)
  from `server/storage.ts`, with the relational store modelled as a list of
  rows and drizzle's `update ... where eq(id, ...)` as a map over that list;
* the HTTP route handlers from `server/routes.ts` modelled as pure functions
  from a resolved actor and a store snapshot to a result;
* the client-side visibility pipeline (`visiblePosts` and the access gate)
  from `client/src/pages/section.tsx`.

Timestamps are modelled as naturals, `ORDER BY x DESC` as a stable insertion
sort on the snapshot order, and nullable columns as `Option`.
-/

namespace Forum

/-- Roles, from the `Role` union in the shared schema. -/
inductive Role where
  | user
  | helper
  | moderator
  | admin
  | developer
  | owner
deriving DecidableEq, Repr

/-- Forum sections, from the `Section` union in the shared schema. -/
inductive Sect where
  | general
  | offTopic
  | codeShare
  | support
  | bot
  | website
  | playerReports
  | bugReports
  | supportTickets
  | devPanel
deriving DecidableEq, Repr

/-- `ROLE_HIERARCHY` from `client/src/lib/permissions.ts` (the same table is
re-declared inline in `server/routes.ts` and `client/src/pages/section.tsx`). -/
def ROLE_HIERARCHY : Role → Nat
  | .user => 0
  | .helper => 1
  | .moderator => 2
  | .admin => 3
  | .developer => 3
  | .owner => 4

/-- `canAccessSection` from `client/src/lib/permissions.ts`. -/
def canAccessSection (role : Role) (s : Sect) : Bool :=
  if s = Sect.devPanel then role = Role.developer || role = Role.owner
  else true

/-- `canDeletePost` from `client/src/lib/permissions.ts`. -/
def canDeletePost (role : Role) : Bool :=
  ROLE_HIERARCHY role ≥ ROLE_HIERARCHY Role.moderator

/-- `canRevivePost` from `client/src/lib/permissions.ts`. -/
def canRevivePost (role : Role) : Bool :=
  ROLE_HIERARCHY role ≥ ROLE_HIERARCHY Role.admin

/-- `canTagBugReport` from `client/src/lib/permissions.ts`. -/
def canTagBugReport (role : Role) : Bool :=
  role = Role.developer || role = Role.owner

/-- `canViewAllReports` from `client/src/lib/permissions.ts`. -/
def canViewAllReports (role : Role) (s : Sect) : Bool :=
  if s = Sect.playerReports then
    ROLE_HIERARCHY role ≥ ROLE_HIERARCHY Role.moderator
  else if s = Sect.bugReports then
    role = Role.developer || role = Role.owner
  else if s = Sect.supportTickets then
    ROLE_HIERARCHY role ≥ ROLE_HIERARCHY Role.helper
  else false

/-- An authenticated actor as resolved by the session layer: the `users` row
id plus its role. -/
structure Actor where
  id : Nat
  role : Role
deriving DecidableEq, Repr

/-- A row of the `posts` table (fields as used by the storage layer and the
section page; timestamps as naturals). -/
structure Post where
  id : Nat
  authorId : Nat
  sect : Sect
  title : String
  content : String
  status : Option String
  deleted : Bool
  deletedBy : Option Nat
  createdAt : Nat
  updatedAt : Nat
deriving DecidableEq, Repr

/-- A row of the `appeals` table: `approved` is the nullable boolean decision
column (`none` = pending, `some true` = approved, `some false` = rejected). -/
structure Appeal where
  id : Nat
  userId : Nat
  punishmentId : Nat
  reason : String
  approved : Option Bool
  createdAt : Nat
deriving DecidableEq, Repr

/-- The error taxonomy the route handlers report through HTTP status codes. -/
inductive ApiError where
  | authenticationRequired
  | authorizationDenied
  | notFound
  | validationError
  | conflictError
deriving DecidableEq, Repr

/-- `updateUserBadge` in `server/storage.ts` computes the local `newBadge`
from `postCount + messageCount` by this threshold chain. -/
def newBadge (postCount messageCount : Nat) : String :=
  let totalCount := postCount + messageCount
  if totalCount ≥ 300 then "legendary-qube"
  else if totalCount ≥ 225 then "unique-qube"
  else if totalCount ≥ 150 then "epic-qube"
  else if totalCount ≥ 80 then "qubed"
  else if totalCount ≥ 35 then "climber"
  else if totalCount ≥ 10 then "member"
  else "new-member"

/-! ## The relational store, modelled as lists of rows

`ORDER BY key DESC` is modelled as a stable insertion sort on the snapshot
order: rows with equal keys keep their relative store order, which is what a
single-column descending sort gives the caller. -/

/-- Insert `a` into `l`, keeping `a` before the first element it is
`le`-related to (stable insertion step). -/
def orderByInsert (le : α → α → Bool) (a : α) : List α → List α
  | [] => [a]
  | b :: l => if le a b then a :: b :: l else b :: orderByInsert le a l

/-- Stable insertion sort by the boolean relation `le`: models a SQL
`ORDER BY` over the store snapshot. -/
def orderBy (le : α → α → Bool) : List α → List α
  | [] => []
  | a :: l => orderByInsert le a (orderBy le l)

/-- Descending comparison on a natural-valued key: models `desc(column)`. -/
def descBy (key : α → Nat) (a b : α) : Bool :=
  key b ≤ key a

/-- Whether `DatabaseStorage.getPosts` adds the `authorId = requesterId`
conjunct to its WHERE clause (the three rank-restricted branches in
`server/storage.ts`). -/
def requireOwnAuthor (s : Sect) (requesterRole : Role) : Bool :=
  if s = Sect.playerReports then
    ROLE_HIERARCHY requesterRole < ROLE_HIERARCHY Role.moderator
  else if s = Sect.bugReports then
    !(requesterRole = Role.developer || requesterRole = Role.owner)
  else if s = Sect.supportTickets then
    ROLE_HIERARCHY requesterRole < ROLE_HIERARCHY Role.helper
  else false

/-- The WHERE clause `DatabaseStorage.getPosts` builds: section match, plus
the own-author conjunct when the requester lacks full visibility. -/
def getPostsWhere (s : Sect) (requesterRole : Role) (requesterId : Nat)
    (p : Post) : Bool :=
  p.sect = s && (!requireOwnAuthor s requesterRole || p.authorId = requesterId)

/-- `DatabaseStorage.getPosts`: filter by the WHERE clause, then
`ORDER BY createdAt DESC`. -/
def getPosts (db : List Post) (s : Sect) (requesterRole : Role)
    (requesterId : Nat) : List Post :=
  orderBy (descBy Post.createdAt) (db.filter (getPostsWhere s requesterRole requesterId))

/-- `DatabaseStorage.getPost`: select by primary key. -/
def getPost (db : List Post) (id : Nat) : Option Post :=
  db.find? (fun p => p.id = id)

/-- Drizzle's `update(posts).set(f).where(eq(posts.id, id))` over the list
model: rewrite every row whose id matches. -/
def updateWhereId (db : List Post) (id : Nat) (f : Post → Post) : List Post :=
  db.map (fun p => if p.id = id then f p else p)

/-- The PATCH body accepted by `updatePostSchema`: optional title/content. -/
structure UpdatePostReq where
  title : Option String
  content : Option String
deriving DecidableEq, Repr

/-- The row rewrite `DatabaseStorage.updatePost` performs:
`set({ ...updates, updatedAt: new Date() })`. -/
def applyUpdates (u : UpdatePostReq) (now : Nat) (p : Post) : Post :=
  { p with
    title := u.title.getD p.title
    content := u.content.getD p.content
    updatedAt := now }

/-- `DatabaseStorage.updatePost`. -/
def updatePostDb (db : List Post) (id : Nat) (u : UpdatePostReq) (now : Nat) : List Post :=
  updateWhereId db id (applyUpdates u now)

/-- `DatabaseStorage.deletePost`: `set({ deleted: true, deletedBy })`. -/
def deletePostDb (db : List Post) (id deletedBy : Nat) : List Post :=
  updateWhereId db id (fun p => { p with deleted := true, deletedBy := some deletedBy })

/-- `DatabaseStorage.revivePost`: `set({ deleted: false, deletedBy: null })`. -/
def revivePostDb (db : List Post) (id : Nat) : List Post :=
  updateWhereId db id (fun p => { p with deleted := false, deletedBy := none })

/-! ## Route handlers (`server/routes.ts`), for a resolved actor -/

/-- `PATCH /api/posts/:id`: 404 if the post is missing, 403 unless the actor
is the author, 400 when no field is supplied, else write through
`updatePost`. The route never consults the post's deleted flag. -/
def patchPost (db : List Post) (actorId postId : Nat) (u : UpdatePostReq)
    (now : Nat) : Except ApiError (List Post) :=
  match getPost db postId with
  | none => Except.error ApiError.notFound
  | some post =>
    if post.authorId ≠ actorId then Except.error ApiError.authorizationDenied
    else if u.title = none ∧ u.content = none then Except.error ApiError.validationError
    else Except.ok (updatePostDb db postId u now)

/-- `DELETE /api/posts/:id`: 403 below moderator rank, 404 if missing, else
write through `deletePost` with `deletedBy := actor.id`, unconditionally. -/
def deletePostRoute (db : List Post) (actor : Actor) (postId : Nat) :
    Except ApiError (List Post) :=
  if ROLE_HIERARCHY actor.role < ROLE_HIERARCHY Role.moderator then
    Except.error ApiError.authorizationDenied
  else
    match getPost db postId with
    | none => Except.error ApiError.notFound
    | some _ => Except.ok (deletePostDb db postId actor.id)

/-! ## Client visibility pipeline (`client/src/pages/section.tsx`) -/

/-- JavaScript `String.prototype.includes` on the character list. -/
def charsInclude (q : List Char) : List Char → Bool
  | [] => q.isEmpty
  | c :: rest => q.isPrefixOf (c :: rest) || charsInclude q rest

/-- First `visiblePosts` filter: keep non-deleted posts, and deleted ones
only for viewers passing `canRevivePost`. -/
def deletedFilter (role : Role) (p : Post) : Bool :=
  !p.deleted || canRevivePost role

/-- `canViewAllInSection` as re-declared inside `section.tsx`. -/
def canViewAllInSection (s : Sect) (userRole : Role) : Bool :=
  if s = Sect.playerReports then
    ROLE_HIERARCHY userRole ≥ ROLE_HIERARCHY Role.moderator
  else if s = Sect.bugReports then
    userRole = Role.developer || userRole = Role.owner
  else if s = Sect.supportTickets then
    ROLE_HIERARCHY userRole ≥ ROLE_HIERARCHY Role.helper
  else true

/-- Second `visiblePosts` filter: own-author restriction in the three
report sections. -/
def reportSectionFilter (s : Sect) (role : Role) (userId : Nat) (p : Post) : Bool :=
  if s = Sect.playerReports ∨ s = Sect.bugReports ∨ s = Sect.supportTickets then
    canViewAllInSection s role || p.authorId = userId
  else true

/-- Third `visiblePosts` filter: case-insensitive substring search over
title and content; an empty query keeps everything. -/
def searchFilter (q : String) (p : Post) : Bool :=
  if q.isEmpty then true
  else
    charsInclude q.toLower.data p.title.toLower.data ||
    charsInclude q.toLower.data p.content.toLower.data

/-- The `visiblePosts` chain of three filters from `section.tsx`. -/
def visiblePosts (posts : List Post) (s : Sect) (role : Role) (userId : Nat)
    (q : String) : List Post :=
  ((posts.filter (deletedFilter role)).filter (reportSectionFilter s role userId)).filter
    (searchFilter q)

/-- The end-to-end listing a viewer observes: `section.tsx` renders the
access-denied card (before any filtering) when `canAccessSection` fails,
and otherwise applies `visiblePosts` to the rows served by
`GET /api/posts/:section` (`DatabaseStorage.getPosts`). -/
def listContent (db : List Post) (viewer : Actor) (s : Sect) (q : String) :
    Except ApiError (List Post) :=
  if canAccessSection viewer.role s then
    Except.ok (visiblePosts (getPosts db s viewer.role viewer.id) s viewer.role viewer.id q)
  else Except.error ApiError.authorizationDenied

/-! ## Appeals -/

/-- The role gate shared by `GET /api/appeals`, `POST /api/appeals/:id/approve`
and `POST /api/appeals/:id/reject`: literally `owner`, `admin` or
`moderator`. -/
def appealsRoleAllowed (role : Role) : Bool :=
  role = Role.owner || role = Role.admin || role = Role.moderator

/-- `DatabaseStorage.createAppeal` inserts only `userId`, `punishmentId` and
`reason`. Modelled from the spec: the shared schema file declaring the
`appeals` table is not among the sources; per the spec the decision column
is null (Pending) on creation, so the insert defaults `approved := none`. -/
def createAppeal (db : List Appeal) (newId userId punishmentId : Nat)
    (reason : String) (now : Nat) : List Appeal × Appeal :=
  let a : Appeal :=
    { id := newId, userId := userId, punishmentId := punishmentId
      reason := reason, approved := none, createdAt := now }
  (db ++ [a], a)

/-- SQL three-valued equality of two nullable boolean values, collapsed to
the WHERE clause's row-acceptance boolean: a comparison with a NULL operand
is UNKNOWN and rejects the row, so only equal non-null values pass. -/
def sqlEq (a b : Option Bool) : Bool :=
  match a, b with
  | some x, some y => x = y
  | _, _ => false

/-- `DatabaseStorage.getAppeals`: `where(eq(appeals.approved, null))` ordered
by `createdAt` descending. Drizzle's `eq` renders the null literal as the SQL
predicate `approved = NULL` (it does not rewrite to `IS NULL`; `isNull` is
the operator for that), so under three-valued logic the clause accepts no
row, null-valued or not. -/
def getAppeals (db : List Appeal) : List Appeal :=
  orderBy (descBy Appeal.createdAt) (db.filter (fun a => sqlEq a.approved none))

/-- `GET /api/appeals`: 403 unless owner/admin/moderator, else
`storage.getAppeals()`. -/
def getAppealsRoute (db : List Appeal) (viewer : Actor) :
    Except ApiError (List Appeal) :=
  if appealsRoleAllowed viewer.role then Except.ok (getAppeals db)
  else Except.error ApiError.authorizationDenied

/-- `POST /api/appeals/:id/approve`: after the role gate the handler body is
only the comment `// Update appeal approval status` and a success reply —
it performs no storage write, so the snapshot is returned unchanged. -/
def approveAppealRoute (db : List Appeal) (actor : Actor) (appealId : Nat) :
    Except ApiError (List Appeal) :=
  if appealsRoleAllowed actor.role then Except.ok db
  else Except.error ApiError.authorizationDenied

/-- `POST /api/appeals/:id/reject`: same stub shape as the approve route. -/
def rejectAppealRoute (db : List Appeal) (actor : Actor) (appealId : Nat) :
    Except ApiError (List Appeal) :=
  if appealsRoleAllowed actor.role then Except.ok db
  else Except.error ApiError.authorizationDenied

/-! ## Lemmas about the store model -/

theorem orderByInsert_mem (le : α → α → Bool) (a x : α) (l : List α) :
    x ∈ orderByInsert le a l ↔ x = a ∨ x ∈ l := by
  induction l with
  | nil => simp [orderByInsert]
  | cons b t ih =>
    simp only [orderByInsert]
    split
    · simp [List.mem_cons]
    · simp only [List.mem_cons, ih]
      tauto

theorem orderBy_mem (le : α → α → Bool) (x : α) (l : List α) :
    x ∈ orderBy le l ↔ x ∈ l := by
  induction l with
  | nil => simp [orderBy]
  | cons a t ih =>
    simp only [orderBy, orderByInsert_mem, List.mem_cons, ih]

theorem orderByInsert_pairwise (le : α → α → Bool)
    (htot : ∀ a b, le a b = true ∨ le b a = true)
    (htrans : ∀ a b c, le a b = true → le b c = true → le a c = true)
    (a : α) (l : List α) (h : l.Pairwise (fun x y => le x y = true)) :
    (orderByInsert le a l).Pairwise (fun x y => le x y = true) := by
  induction l with
  | nil => simp [orderByInsert]
  | cons b t ih =>
    rcases List.pairwise_cons.mp h with ⟨hb, ht⟩
    simp only [orderByInsert]
    split
    · rename_i hab
      refine List.pairwise_cons.mpr ⟨?_, h⟩
      intro x hx
      rcases List.mem_cons.mp hx with rfl | hxt
      · exact hab
      · exact htrans a b x hab (hb x hxt)
    · rename_i hab
      refine List.pairwise_cons.mpr ⟨?_, ih ht⟩
      intro x hx
      rcases (orderByInsert_mem le a x t).mp hx with rfl | hxt
      · rcases htot x b with hxb | hbx
        · exact absurd hxb hab
        · exact hbx
      · exact hb x hxt

theorem orderBy_pairwise (le : α → α → Bool)
    (htot : ∀ a b, le a b = true ∨ le b a = true)
    (htrans : ∀ a b c, le a b = true → le b c = true → le a c = true)
    (l : List α) :
    (orderBy le l).Pairwise (fun x y => le x y = true) := by
  induction l with
  | nil => simp [orderBy]
  | cons a t ih => exact orderByInsert_pairwise le htot htrans a (orderBy le t) ih

theorem descBy_total (key : α → Nat) (a b : α) :
    descBy key a b = true ∨ descBy key b a = true := by
  simp only [descBy, decide_eq_true_eq]
  omega

theorem descBy_trans (key : α → Nat) (a b c : α) :
    descBy key a b = true → descBy key b c = true → descBy key a c = true := by
  simp only [descBy, decide_eq_true_eq]
  omega

/-- Membership in a `getPosts` result is exactly: in the snapshot and
matching the WHERE clause. -/
theorem mem_getPosts (db : List Post) (s : Sect) (role : Role) (rid : Nat)
    (p : Post) :
    p ∈ getPosts db s role rid ↔ p ∈ db ∧ getPostsWhere s role rid p = true := by
  simp only [getPosts, orderBy_mem, List.mem_filter]

/-- A `getPosts` result is sorted by `createdAt` descending. -/
theorem getPosts_sorted (db : List Post) (s : Sect) (role : Role) (rid : Nat) :
    (getPosts db s role rid).Pairwise (fun a b => b.createdAt ≤ a.createdAt) := by
  have h := orderBy_pairwise (descBy Post.createdAt)
    (descBy_total Post.createdAt) (descBy_trans Post.createdAt)
    (db.filter (getPostsWhere s role rid))
  exact h.imp (fun hab => by simpa [descBy] using hab)

/-- Selecting a row by id after a per-id rewrite returns the rewritten row,
provided the rewrite keeps ids unchanged. -/
theorem getPost_updateWhereId (db : List Post) (id : Nat) (f : Post → Post)
    (hf : ∀ p, (f p).id = p.id) :
    getPost (updateWhereId db id f) id = (getPost db id).map f := by
  induction db with
  | nil => simp [getPost, updateWhereId]
  | cons p t ih =>
    simp only [getPost, updateWhereId, List.map_cons] at *
    by_cases hp : p.id = id
    · rw [if_pos hp]
      rw [List.find?_cons_of_pos, List.find?_cons_of_pos] <;>
        simp [hf, hp]
    · rw [if_neg hp]
      rw [List.find?_cons_of_neg, List.find?_cons_of_neg] <;>
        simp [hp, ih]

/-- A per-id rewrite is idempotent when the rewrite itself is. -/
theorem updateWhereId_idem (db : List Post) (id : Nat) (f : Post → Post)
    (hf : ∀ p, (f p).id = p.id) (hff : ∀ p, f (f p) = f p) :
    updateWhereId (updateWhereId db id f) id f = updateWhereId db id f := by
  induction db with
  | nil => rfl
  | cons p t ih =>
    simp only [updateWhereId, List.map_cons, List.map_map] at *
    by_cases hp : p.id = id
    · simp [hp, hf, hff, ih]
    · simp [hp, ih]

/-- `canRevivePost` is exactly admin rank and above. -/
theorem canRevivePost_iff (role : Role) :
    canRevivePost role = true ↔ ROLE_HIERARCHY Role.admin ≤ ROLE_HIERARCHY role := by
  cases role <;> decide

/-- On the three rank-restricted sections the own-author WHERE conjunct of
`getPosts` is the negation of `canViewAllReports`. -/
theorem requireOwnAuthor_eq_not_canViewAllReports (role : Role) (s : Sect)
    (hres : s = Sect.playerReports ∨ s = Sect.bugReports ∨ s = Sect.supportTickets) :
    requireOwnAuthor s role = !canViewAllReports role s := by
  rcases hres with rfl | rfl | rfl <;> cases role <;> rfl

/-- The route gate of `GET /api/appeals` admits only roles of rank at least
moderator. -/
theorem appealsRoleAllowed_rank (role : Role) :
    appealsRoleAllowed role = true →
    ROLE_HIERARCHY Role.moderator ≤ ROLE_HIERARCHY role := by
  cases role <;> decide

/-- Membership characterization for `listContent` when it returns a list. -/
theorem mem_listContent (db : List Post) (viewer : Actor) (s : Sect)
    (q : String) (out : List Post) (p : Post)
    (h : listContent db viewer s q = Except.ok out) :
    p ∈ out ↔
      p ∈ db ∧ getPostsWhere s viewer.role viewer.id p = true ∧
      deletedFilter viewer.role p = true ∧
      reportSectionFilter s viewer.role viewer.id p = true ∧
      searchFilter q p = true := by
  unfold listContent at h
  split at h
  · injection h with h
    subst h
    simp only [visiblePosts, List.mem_filter, mem_getPosts]
    tauto
  · cases h

/-! ## Claim theorems -/

/-- C3: admin and developer share rank 3 in the canonical rank table, yet the
capability checks differ: developer (and owner) pass the dev-panel gate and
may tag bug reports, while admin passes neither. -/
theorem C3_admin_developer_rank_tie :
    ROLE_HIERARCHY Role.admin = ROLE_HIERARCHY Role.developer
    ∧ ROLE_HIERARCHY Role.admin = 3
    ∧ canAccessSection Role.developer Sect.devPanel = true
    ∧ canAccessSection Role.owner Sect.devPanel = true
    ∧ canAccessSection Role.admin Sect.devPanel = false
    ∧ canTagBugReport Role.developer = true
    ∧ canTagBugReport Role.owner = true
    ∧ canTagBugReport Role.admin = false := by
  decide

/-- C4: the badge is a pure function of `postCount + messageCount`, decided
highest-threshold-first: each tier is produced exactly on its interval, the
spec's sample points evaluate as stated, and recomputation with identical
counters yields the same tier. -/
theorem C4_badge_thresholds (p m : Nat) :
    (newBadge p m = "legendary-qube" ↔ 300 ≤ p + m)
    ∧ (newBadge p m = "unique-qube" ↔ 225 ≤ p + m ∧ p + m < 300)
    ∧ (newBadge p m = "epic-qube" ↔ 150 ≤ p + m ∧ p + m < 225)
    ∧ (newBadge p m = "qubed" ↔ 80 ≤ p + m ∧ p + m < 150)
    ∧ (newBadge p m = "climber" ↔ 35 ≤ p + m ∧ p + m < 80)
    ∧ (newBadge p m = "member" ↔ 10 ≤ p + m ∧ p + m < 35)
    ∧ (newBadge p m = "new-member" ↔ p + m < 10)
    ∧ newBadge p m = newBadge p m
    ∧ newBadge 9 0 = "new-member"
    ∧ newBadge 10 0 = "member"
    ∧ newBadge 34 0 = "member"
    ∧ newBadge 35 0 = "climber"
    ∧ newBadge 300 0 = "legendary-qube" := by
  refine ⟨?_, ?_, ?_, ?_, ?_, ?_, ?_, rfl, rfl, rfl, rfl, rfl, rfl⟩ <;>
  · unfold newBadge
    dsimp only
    split_ifs <;> simp_all <;> omega

/-- Concrete inputs for the C5 evaluation: a moderator and a pending appeal. -/
def c5actor : Actor := ⟨1, Role.moderator⟩

/-- A pending appeal stored under id 7. -/
def c5appeal : Appeal :=
  { id := 7, userId := 2, punishmentId := 3, reason := "please", approved := none
    createdAt := 0 }

/-- C5: the decision routes are stubs. Whenever the role gate passes they
return success with the store untouched — no appeal ever transitions out of
Pending and a repeated call succeeds again instead of reporting a conflict.
Appeal creation itself does yield a Pending appeal. -/
theorem C5_decide_appeal_never_transitions :
    (∀ (db : List Appeal) (actor : Actor) (appealId : Nat),
      approveAppealRoute db actor appealId = Except.ok db
      ∨ approveAppealRoute db actor appealId = Except.error ApiError.authorizationDenied)
    ∧ (∀ (db : List Appeal) (actor : Actor) (appealId : Nat),
      rejectAppealRoute db actor appealId = Except.ok db
      ∨ rejectAppealRoute db actor appealId = Except.error ApiError.authorizationDenied)
    ∧ (∀ (db : List Appeal) (newId userId punishmentId : Nat) (reason : String) (now : Nat),
      (createAppeal db newId userId punishmentId reason now).2.approved = none)
    ∧ approveAppealRoute [c5appeal] c5actor 7 = Except.ok [c5appeal]
    ∧ approveAppealRoute [c5appeal] c5actor 7 ≠ Except.error ApiError.conflictError
    ∧ c5appeal.approved = none := by
  refine ⟨?_, ?_, ?_, rfl, fun h => Except.noConfusion h, rfl⟩
  · intro db actor appealId
    unfold approveAppealRoute
    split
    · exact Or.inl rfl
    · exact Or.inr rfl
  · intro db actor appealId
    unfold rejectAppealRoute
    split
    · exact Or.inl rfl
    · exact Or.inr rfl
  · intro db newId userId punishmentId reason now
    rfl

/-- C1: in any listing a viewer actually receives, a viewer below admin rank
never sees a soft-deleted item, while a viewer of admin rank and above
receives every soft-deleted item of the section that passes the section's
other visibility rules, returned as the stored row itself (so with its
deleted flag intact). -/
theorem C1_soft_delete_visibility (db : List Post) (viewer : Actor) (s : Sect)
    (q : String) (out : List Post)
    (h : listContent db viewer s q = Except.ok out) :
    (ROLE_HIERARCHY viewer.role < ROLE_HIERARCHY Role.admin →
      ∀ p ∈ out, p.deleted = false)
    ∧ (ROLE_HIERARCHY Role.admin ≤ ROLE_HIERARCHY viewer.role →
      ∀ p ∈ db, p.deleted = true →
        getPostsWhere s viewer.role viewer.id p = true →
        reportSectionFilter s viewer.role viewer.id p = true →
        searchFilter q p = true →
        p ∈ out)
    ∧ (∀ p ∈ out, p ∈ db) := by
  refine ⟨?_, ?_, ?_⟩
  · intro hrank p hp
    have hdel : deletedFilter viewer.role p = true :=
      ((mem_listContent db viewer s q out p h).mp hp).2.2.1
    unfold deletedFilter at hdel
    cases hd : p.deleted
    · rfl
    · exfalso
      rw [hd] at hdel
      simp only [Bool.not_true, Bool.false_or] at hdel
      exact absurd ((canRevivePost_iff viewer.role).mp hdel) (by omega)
  · intro hrank p hpdb hdel hwhere hreport hsearch
    refine (mem_listContent db viewer s q out p h).mpr ⟨hpdb, hwhere, ?_, hreport, hsearch⟩
    unfold deletedFilter
    rw [hdel, (canRevivePost_iff viewer.role).mpr hrank]
    rfl
  · intro p hp
    exact ((mem_listContent db viewer s q out p h).mp hp).1

/-- A soft-deleted post in an open section, for the C1 witness. -/
def c1deleted : Post :=
  { id := 1, authorId := 2, sect := Sect.general, title := "t", content := "c"
    status := none, deleted := true, deletedBy := some 3, createdAt := 5
    updatedAt := 5 }

/-- An admin viewer, for the C1 witness. -/
def c1admin : Actor := ⟨9, Role.admin⟩

/-- C1 witness: an admin listing the general section receives the deleted
post, with its deleted flag set. -/
theorem C1_soft_delete_visibility_witness :
    listContent [c1deleted] c1admin Sect.general "" = Except.ok [c1deleted]
    ∧ c1deleted ∈ [c1deleted]
    ∧ c1deleted.deleted = true :=
  ⟨rfl,
   (C1_soft_delete_visibility [c1deleted] c1admin Sect.general "" [c1deleted] rfl).2.1
     (by decide) c1deleted (by decide) rfl rfl rfl rfl,
   rfl⟩

/-- C2: on a rank-restricted section, a viewer without full visibility is
served exactly their own items of that section, and a viewer with full
visibility is served every item of that section, whoever its author is. -/
theorem C2_rank_restricted_author_scope (db : List Post) (viewer : Actor)
    (s : Sect) (p : Post)
    (hres : s = Sect.playerReports ∨ s = Sect.bugReports ∨ s = Sect.supportTickets) :
    (canViewAllReports viewer.role s = false →
      (p ∈ getPosts db s viewer.role viewer.id ↔
        p ∈ db ∧ p.sect = s ∧ p.authorId = viewer.id))
    ∧ (canViewAllReports viewer.role s = true →
      (p ∈ getPosts db s viewer.role viewer.id ↔ p ∈ db ∧ p.sect = s)) := by
  have hbridge := requireOwnAuthor_eq_not_canViewAllReports viewer.role s hres
  constructor
  · intro hfull
    rw [mem_getPosts]
    unfold getPostsWhere
    rw [hbridge, hfull]
    simp [and_assoc]
  · intro hfull
    rw [mem_getPosts]
    unfold getPostsWhere
    rw [hbridge, hfull]
    simp

/-- The helper viewer of the spec's bug-reports scenario. -/
def c2viewer : Actor := ⟨1, Role.helper⟩

/-- A bug report authored by the helper themself. -/
def c2own : Post :=
  { id := 1, authorId := 1, sect := Sect.bugReports, title := "mine"
    content := "a", status := some "pending", deleted := false
    deletedBy := none, createdAt := 3, updatedAt := 3 }

/-- A bug report authored by someone else. -/
def c2other : Post :=
  { id := 2, authorId := 2, sect := Sect.bugReports, title := "theirs"
    content := "b", status := some "pending", deleted := false
    deletedBy := none, createdAt := 4, updatedAt := 4 }

/-- C2 witness: a helper listing bug-reports lacks full visibility and is
served exactly their own report. -/
theorem C2_rank_restricted_author_scope_witness :
    canViewAllReports c2viewer.role Sect.bugReports = false
    ∧ (c2own ∈ getPosts [c2own, c2other] Sect.bugReports c2viewer.role c2viewer.id ↔
        c2own ∈ [c2own, c2other] ∧ c2own.sect = Sect.bugReports ∧ c2own.authorId = c2viewer.id)
    ∧ (c2other ∈ getPosts [c2own, c2other] Sect.bugReports c2viewer.role c2viewer.id ↔
        c2other ∈ [c2own, c2other] ∧ c2other.sect = Sect.bugReports ∧ c2other.authorId = c2viewer.id)
    ∧ getPosts [c2own, c2other] Sect.bugReports c2viewer.role c2viewer.id = [c2own] :=
  ⟨rfl,
   (C2_rank_restricted_author_scope [c2own, c2other] c2viewer Sect.bugReports c2own
     (Or.inr (Or.inl rfl))).1 rfl,
   (C2_rank_restricted_author_scope [c2own, c2other] c2viewer Sect.bugReports c2other
     (Or.inr (Or.inl rfl))).1 rfl,
   rfl⟩

/-- C7: a viewer failing the dev-panel capability gate gets the
authorization-denied outcome from the listing pipeline; the outcome does not
depend on the stored items at all (the gate fires before any listing or
filtering), and it is distinct from an empty result list. -/
theorem C7_capability_gate (db : List Post) (viewer : Actor) (q : String)
    (h : canAccessSection viewer.role Sect.devPanel = false) :
    listContent db viewer Sect.devPanel q = Except.error ApiError.authorizationDenied
    ∧ (∀ other : List Post,
        listContent other viewer Sect.devPanel q = listContent db viewer Sect.devPanel q)
    ∧ (Except.error ApiError.authorizationDenied ≠
        (Except.ok [] : Except ApiError (List Post))) := by
  have hmain : ∀ d : List Post,
      listContent d viewer Sect.devPanel q = Except.error ApiError.authorizationDenied := by
    intro d
    unfold listContent
    rw [h]
    simp
  exact ⟨hmain db, fun other => (hmain other).trans (hmain db).symm,
    fun hc => Except.noConfusion hc⟩

/-- A dev-panel post used by the C7 witness. -/
def c7post : Post :=
  { id := 4, authorId := 8, sect := Sect.devPanel, title := "internal"
    content := "x", status := none, deleted := false, deletedBy := none
    createdAt := 1, updatedAt := 1 }

/-- C7 witness: an ordinary user listing dev-panel is denied, and the denial
does not depend on the stored posts. -/
theorem C7_capability_gate_witness :
    listContent [c7post] ⟨1, Role.user⟩ Sect.devPanel "" =
      Except.error ApiError.authorizationDenied
    ∧ listContent [] ⟨1, Role.user⟩ Sect.devPanel "" =
        listContent [c7post] ⟨1, Role.user⟩ Sect.devPanel "" :=
  ⟨(C7_capability_gate [c7post] ⟨1, Role.user⟩ "" rfl).1,
   (C7_capability_gate [c7post] ⟨1, Role.user⟩ "" rfl).2.1 []⟩

/-- A `= NULL` comparison never accepts a value, null-valued or not. -/
theorem sqlEq_none (v : Option Bool) : sqlEq v none = false := by
  cases v <;> rfl

/-- A pending appeal stored in the appeals table. -/
def c10pending : Appeal :=
  { id := 1, userId := 2, punishmentId := 3, reason := "a", approved := none
    createdAt := 4 }

/-- An already-approved appeal stored in the appeals table. -/
def c10decided : Appeal :=
  { id := 2, userId := 2, punishmentId := 3, reason := "b"
    approved := some true, createdAt := 9 }

/-- C10: the pending-appeals listing is broken by a null-comparison slip.
The WHERE clause `eq(appeals.approved, null)` renders as SQL
`approved = NULL`, which three-valued logic never satisfies, so `getAppeals`
matches no rows at all and every successful `GET /api/appeals` serves the
empty list. The role gate itself does hold — a viewer is either denied or of
at least moderator rank — but a moderator is served nothing even when a
pending appeal is stored, against the route's evident purpose (the client's
Appeal Management page renders the served appeals with approve/reject
buttons and reads the empty answer as "No pending appeals"). -/
theorem C10_listAppeals_returns_no_pending :
    (∀ v : Option Bool, sqlEq v none = false)
    ∧ (∀ db : List Appeal, getAppeals db = [])
    ∧ (∀ (db : List Appeal) (viewer : Actor),
        getAppealsRoute db viewer = Except.ok []
        ∨ getAppealsRoute db viewer = Except.error ApiError.authorizationDenied)
    ∧ (∀ (db : List Appeal) (viewer : Actor),
        getAppealsRoute db viewer = Except.error ApiError.authorizationDenied
        ∨ ROLE_HIERARCHY Role.moderator ≤ ROLE_HIERARCHY viewer.role)
    ∧ getAppealsRoute [c10pending, c10decided] ⟨5, Role.moderator⟩ = Except.ok []
    ∧ c10pending.approved = none
    ∧ c10pending ∉ ([] : List Appeal) := by
  have hempty : ∀ db : List Appeal, getAppeals db = [] := by
    intro db
    unfold getAppeals
    have h : db.filter (fun a => sqlEq a.approved none) = [] := by
      induction db with
      | nil => rfl
      | cons a t ih => simpa [List.filter_cons, sqlEq_none a.approved] using ih
    rw [h]
    rfl
  refine ⟨sqlEq_none, hempty, ?_, ?_, ?_, rfl, List.not_mem_nil c10pending⟩
  · intro db viewer
    unfold getAppealsRoute
    split
    · rw [hempty db]
      exact Or.inl rfl
    · exact Or.inr rfl
  · intro db viewer
    unfold getAppealsRoute
    split
    · rename_i hall
      exact Or.inr (appealsRoleAllowed_rank viewer.role hall)
    · exact Or.inl rfl
  · rw [show getAppealsRoute [c10pending, c10decided] ⟨5, Role.moderator⟩ =
      Except.ok (getAppeals [c10pending, c10decided]) from rfl, hempty]

/-- A soft-deleted post whose author is user 1, for the C6 counterexample. -/
def c6post : Post :=
  { id := 5, authorId := 1, sect := Sect.general, title := "old"
    content := "body", status := none, deleted := true, deletedBy := some 2
    createdAt := 0, updatedAt := 0 }

/-- C6 counterexample: the edit route accepts an author's edit of a
soft-deleted item — it replies with the updated store, not an authorization
failure, and the item changes. -/
theorem C6_edit_of_deleted_item_succeeds :
    c6post.deleted = true
    ∧ patchPost [c6post] 1 5 ⟨some "new", none⟩ 9 =
        Except.ok [{ c6post with title := "new", updatedAt := 9 }]
    ∧ (Except.ok [{ c6post with title := "new", updatedAt := 9 }] :
        Except ApiError (List Post)) ≠ Except.error ApiError.authorizationDenied
    ∧ ({ c6post with title := "new", updatedAt := 9 } : Post) ≠ c6post :=
  ⟨rfl, rfl, fun h => Except.noConfusion h, by decide⟩

/-- C6 (amended): an edit succeeds exactly when the actor is the item's
author and at least one field is supplied — the item's deleted state is
never consulted; a non-author is denied, and a successful edit stamps
`updatedAt` with the write time. -/
theorem C6_edit_requires_author_only (db : List Post) (actorId postId : Nat)
    (u : UpdatePostReq) (now : Nat) (post : Post)
    (hfind : getPost db postId = some post)
    (hnonempty : ¬(u.title = none ∧ u.content = none)) :
    (post.authorId = actorId →
      patchPost db actorId postId u now = Except.ok (updatePostDb db postId u now)
      ∧ getPost (updatePostDb db postId u now) postId = some (applyUpdates u now post)
      ∧ (applyUpdates u now post).updatedAt = now)
    ∧ (post.authorId ≠ actorId →
      patchPost db actorId postId u now = Except.error ApiError.authorizationDenied) := by
  constructor
  · intro hauth
    refine ⟨?_, ?_, rfl⟩
    · unfold patchPost
      rw [hfind]
      simp [hauth, hnonempty]
    · unfold updatePostDb
      rw [getPost_updateWhereId db postId (applyUpdates u now) (fun p => rfl), hfind]
      rfl
  · intro hauth
    unfold patchPost
    rw [hfind]
    simp [hauth]

/-- C6 witness: the author's edit goes through (with `updatedAt` stamped)
and a different user's edit of the same post is denied. -/
theorem C6_edit_requires_author_only_witness :
    getPost [c6post] 5 = some c6post
    ∧ patchPost [c6post] 1 5 ⟨some "new", none⟩ 9 =
        Except.ok (updatePostDb [c6post] 5 ⟨some "new", none⟩ 9)
    ∧ (applyUpdates ⟨some "new", none⟩ 9 c6post).updatedAt = 9
    ∧ patchPost [c6post] 2 5 ⟨some "new", none⟩ 9 =
        Except.error ApiError.authorizationDenied :=
  ⟨rfl,
   ((C6_edit_requires_author_only [c6post] 1 5 ⟨some "new", none⟩ 9 c6post rfl
     (by decide)).1 rfl).1,
   ((C6_edit_requires_author_only [c6post] 1 5 ⟨some "new", none⟩ 9 c6post rfl
     (by decide)).1 rfl).2.2,
   (C6_edit_requires_author_only [c6post] 2 5 ⟨some "new", none⟩ 9 c6post rfl
     (by decide)).2 (by decide)⟩

/-- First of two posts sharing a creation time, for the C8 counterexample. -/
def c8a : Post :=
  { id := 1, authorId := 1, sect := Sect.general, title := "first"
    content := "a", status := none, deleted := false, deletedBy := none
    createdAt := 5, updatedAt := 5 }

/-- Second of two posts sharing a creation time, with the larger id. -/
def c8b : Post :=
  { id := 2, authorId := 1, sect := Sect.general, title := "second"
    content := "b", status := none, deleted := false, deletedBy := none
    createdAt := 5, updatedAt := 5 }

/-- C8 counterexample: two items with equal creation time come back in store
order — here ascending ids — not id-descending, so the claimed tie-break
does not exist. -/
theorem C8_no_id_tiebreak :
    getPosts [c8a, c8b] Sect.general Role.user 1 = [c8a, c8b]
    ∧ c8a.createdAt = c8b.createdAt
    ∧ c8a.id < c8b.id :=
  ⟨rfl, rfl, by decide⟩

/-- C8 (amended): the listing is ordered by creation time descending, and
holds exactly the snapshot rows matching the section's WHERE clause; equal
creation times are served in store order — there is no id tie-break. -/
theorem C8_sorted_by_createdAt_desc (db : List Post) (s : Sect) (role : Role)
    (rid : Nat) :
    (getPosts db s role rid).Pairwise (fun a b => b.createdAt ≤ a.createdAt)
    ∧ (∀ p, p ∈ getPosts db s role rid ↔
        p ∈ db ∧ getPostsWhere s role rid p = true) :=
  ⟨getPosts_sorted db s role rid, fun p => mem_getPosts db s role rid p⟩

/-- A post already soft-deleted by moderator 10, for the C9 counterexample. -/
def c9post : Post :=
  { id := 5, authorId := 3, sect := Sect.general, title := "x", content := "y"
    status := none, deleted := true, deletedBy := some 10, createdAt := 1
    updatedAt := 1 }

/-- C9 counterexample: a second delete by a different moderator is not a
no-op — it overwrites `deletedBy` (10 becomes 11). -/
theorem C9_redelete_overwrites_deletedBy :
    c9post.deleted = true
    ∧ c9post.deletedBy = some 10
    ∧ deletePostRoute [c9post] ⟨11, Role.moderator⟩ 5 =
        Except.ok [{ c9post with deleted := true, deletedBy := some 11 }]
    ∧ (getPost (deletePostDb [c9post] 5 11) 5).map Post.deletedBy = some (some 11)
    ∧ some (11 : Nat) ≠ some 10 :=
  ⟨rfl, rfl, rfl, rfl, by decide⟩

/-- C9 (amended): a moderator-ranked delete of an existing item always
writes `deleted := true` and `deletedBy := actor`, whatever the prior state;
repeating the delete with the same actor is a no-op, but the write always
records the current actor, so a different moderator's repeat overwrites
`deletedBy`. -/
theorem C9_delete_records_current_actor (db : List Post) (actor : Actor)
    (postId : Nat) (post : Post)
    (hrank : ROLE_HIERARCHY Role.moderator ≤ ROLE_HIERARCHY actor.role)
    (hfind : getPost db postId = some post) :
    deletePostRoute db actor postId = Except.ok (deletePostDb db postId actor.id)
    ∧ getPost (deletePostDb db postId actor.id) postId =
        some { post with deleted := true, deletedBy := some actor.id }
    ∧ deletePostDb (deletePostDb db postId actor.id) postId actor.id =
        deletePostDb db postId actor.id := by
  refine ⟨?_, ?_, ?_⟩
  · unfold deletePostRoute
    rw [if_neg (by omega), hfind]
  · unfold deletePostDb
    rw [getPost_updateWhereId db postId
      (fun p => { p with deleted := true, deletedBy := some actor.id }) (fun p => rfl), hfind]
    rfl
  · exact updateWhereId_idem db postId _ (fun p => rfl) (fun p => rfl)

/-- An active post for the C9 witness. -/
def c9active : Post :=
  { id := 6, authorId := 3, sect := Sect.general, title := "live"
    content := "z", status := none, deleted := false, deletedBy := none
    createdAt := 2, updatedAt := 2 }

/-- C9 witness: moderator 10 deletes an active post; the row ends Deleted
with `deletedBy = 10`, and the same moderator's repeat delete is a no-op. -/
theorem C9_delete_records_current_actor_witness :
    getPost [c9active] 6 = some c9active
    ∧ deletePostRoute [c9active] ⟨10, Role.moderator⟩ 6 =
        Except.ok (deletePostDb [c9active] 6 10)
    ∧ getPost (deletePostDb [c9active] 6 10) 6 =
        some { c9active with deleted := true, deletedBy := some 10 }
    ∧ deletePostDb (deletePostDb [c9active] 6 10) 6 10 =
        deletePostDb [c9active] 6 10 :=
  ⟨rfl,
   (C9_delete_records_current_actor [c9active] ⟨10, Role.moderator⟩ 6 c9active
     (by decide) rfl).1,
   (C9_delete_records_current_actor [c9active] ⟨10, Role.moderator⟩ 6 c9active
     (by decide) rfl).2.1,
   (C9_delete_records_current_actor [c9active] ⟨10, Role.moderator⟩ 6 c9active
     (by decide) rfl).2.2⟩

end Forum
